import Mathlib

/-!
Shallow embedding of `src/src/liblzma/common/auto_decoder.c`: the
auto-detect dispatcher that chooses between the .lzma Stream decoder and
the LZMA_Alone decoder from the first input byte, and its state machine
`SEQ_INIT -> SEQ_CODE -> SEQ_FINISH`.

The two concrete decoders are external collaborators; their initializers
and `code` functions are abstracted as an environment of functions
(`DecoderEnv`).  Machine integers are modelled as `Nat`; the `uint32_t`
flags word is masked with the 32-bit all-ones constant where the source
takes a bitwise complement.
-/

/-- Return statuses of the liblzma API (`lzma_ret`), restricted to the
values that appear in or can flow through `auto_decoder.c`. -/
inductive lzma_ret where
  | LZMA_OK
  | LZMA_STREAM_END
  | LZMA_NO_CHECK
  | LZMA_GET_CHECK
  | LZMA_DATA_ERROR
  | LZMA_HEADER_ERROR
  | LZMA_BUF_ERROR
  | LZMA_OPTIONS_ERROR
  | LZMA_MEM_ERROR
  | LZMA_PROG_ERROR
  deriving DecidableEq, Repr

/-- Actions supported by the auto decoder (`lzma_auto_decoder` enables
only `LZMA_RUN` and `LZMA_FINISH`). `LZMA_RUN` is the spec's Continue. -/
inductive lzma_action where
  | LZMA_RUN
  | LZMA_FINISH
  deriving DecidableEq, Repr

/-- The three-state sequence enum of `lzma_coder_s`. -/
inductive Sequence where
  | SEQ_INIT
  | SEQ_CODE
  | SEQ_FINISH
  deriving DecidableEq, Repr

/-- The nested coder slot (`coder->next`).  `LZMA_NEXT_CODER_INIT` is the
empty slot; the other constructors record which concrete decoder was
installed and exactly which arguments its initializer received. -/
inductive NextCoder where
  | emptySlot
  | stream (memlimit flags : Nat)
  | alone (memlimit : Nat)
  deriving DecidableEq, Repr

/-- Modelled from the spec: the recognized flag bits of the allow-set
(`LZMA_TELL_NO_CHECK`, `LZMA_TELL_ANY_CHECK`, `LZMA_CONCATENATED` and the
constant `LZMA_SUPPORTED_FLAGS`) are declared in liblzma headers that are
not part of the excerpt; the spec's flag table lists exactly these three
recognized bits.  Their concrete bit positions are irrelevant to the
dispatcher logic; only distinctness matters. -/
def LZMA_TELL_NO_CHECK : Nat := 1

/-- Modelled from the spec: the report-check-proactively flag bit. -/
def LZMA_TELL_ANY_CHECK : Nat := 2

/-- Modelled from the spec: the permit-concatenated-streams flag bit. -/
def LZMA_CONCATENATED : Nat := 4

/-- Modelled from the spec: the fixed allow-set of flag bits. -/
def LZMA_SUPPORTED_FLAGS : Nat :=
  LZMA_TELL_NO_CHECK ||| LZMA_TELL_ANY_CHECK ||| LZMA_CONCATENATED

/-- All-ones mask of a `uint32_t`, used to model the C bitwise complement
`~LZMA_SUPPORTED_FLAGS` on the 32-bit flags word. -/
def UINT32_MASK : Nat := 2 ^ 32 - 1

/-- The dispatcher state `struct lzma_coder_s`. -/
structure lzma_coder where
  next : NextCoder
  memlimit : Nat
  flags : Nat
  sequence : Sequence
  deriving DecidableEq, Repr

/-- Result of one delegate `coder->next.code(...)` call: the returned
status and the updated input and output cursors. -/
structure CodeResult where
  ret : lzma_ret
  in_pos : Nat
  out_pos : Nat
  deriving DecidableEq, Repr

/-- The external collaborators: the two concrete decoders' fallible
initializers and the installed delegate's `code` function.  The delegate
is abstract; `next_code` receives the installed slot, the input buffer,
both cursors and sizes, and the action, exactly the data the C call
passes. -/
structure DecoderEnv where
  stream_decoder_init : Nat → Nat → lzma_ret
  alone_decoder_init : Nat → lzma_ret
  next_code : NextCoder → List Nat → Nat → Nat → Nat → Nat → lzma_action → CodeResult

/-- Result of one `auto_decode` call: returned status, updated coder
state, updated input cursor, updated output cursor. -/
structure AdvanceResult where
  ret : lzma_ret
  coder : lzma_coder
  in_pos : Nat
  out_pos : Nat
  deriving DecidableEq, Repr

/-- The `case SEQ_FINISH` arm of `auto_decode`: trailing-garbage audit,
then stream end exactly on `LZMA_FINISH`. -/
def seq_finish_step (coder : lzma_coder) (in_pos in_size out_pos : Nat)
    (action : lzma_action) : AdvanceResult :=
  if in_pos < in_size then
    ⟨.LZMA_DATA_ERROR, coder, in_pos, out_pos⟩
  else if action = .LZMA_FINISH then
    ⟨.LZMA_STREAM_END, coder, in_pos, out_pos⟩
  else
    ⟨.LZMA_OK, coder, in_pos, out_pos⟩

/-- The `case SEQ_CODE` arm of `auto_decode`: forward to the delegate;
on `LZMA_STREAM_END` with `LZMA_CONCATENATED` set, move to `SEQ_FINISH`
and fall through, otherwise return the delegate's status verbatim. -/
def seq_code_step (env : DecoderEnv) (coder : lzma_coder) (inBuf : List Nat)
    (in_pos in_size out_pos out_size : Nat) (action : lzma_action) : AdvanceResult :=
  let r := env.next_code coder.next inBuf in_pos in_size out_pos out_size action
  if r.ret ≠ .LZMA_STREAM_END ∨ coder.flags &&& LZMA_CONCATENATED = 0 then
    ⟨r.ret, coder, r.in_pos, r.out_pos⟩
  else
    seq_finish_step { coder with sequence := .SEQ_FINISH } r.in_pos in_size r.out_pos action

/-- The `auto_decode` function of `auto_decoder.c`.  The C switch with
fall-through is rendered as the `SEQ_INIT` arm chaining into
`seq_code_step`, which chains into `seq_finish_step`.  The detection byte
`in[*in_pos]` is `inBuf.getD in_pos 0`. -/
def auto_decode (env : DecoderEnv) (coder : lzma_coder) (inBuf : List Nat)
    (in_pos in_size out_pos out_size : Nat) (action : lzma_action) : AdvanceResult :=
  match coder.sequence with
  | .SEQ_INIT =>
    if in_size ≤ in_pos then
      ⟨.LZMA_OK, coder, in_pos, out_pos⟩
    else
      let coder1 : lzma_coder := { coder with sequence := .SEQ_CODE }
      if inBuf.getD in_pos 0 = 0xFD then
        let coder2 : lzma_coder :=
          { coder1 with next := .stream coder1.memlimit coder1.flags }
        let r := env.stream_decoder_init coder1.memlimit coder1.flags
        if r ≠ .LZMA_OK then
          ⟨r, coder2, in_pos, out_pos⟩
        else
          seq_code_step env coder2 inBuf in_pos in_size out_pos out_size action
      else
        let coder2 : lzma_coder := { coder1 with next := .alone coder1.memlimit }
        let r := env.alone_decoder_init coder1.memlimit
        if r ≠ .LZMA_OK then
          ⟨r, coder2, in_pos, out_pos⟩
        else if coder2.flags &&& LZMA_TELL_NO_CHECK ≠ 0 then
          ⟨.LZMA_NO_CHECK, coder2, in_pos, out_pos⟩
        else if coder2.flags &&& LZMA_TELL_ANY_CHECK ≠ 0 then
          ⟨.LZMA_GET_CHECK, coder2, in_pos, out_pos⟩
        else
          seq_code_step env coder2 inBuf in_pos in_size out_pos out_size action
  | .SEQ_CODE => seq_code_step env coder inBuf in_pos in_size out_pos out_size action
  | .SEQ_FINISH => seq_finish_step coder in_pos in_size out_pos action

/-- Result of `auto_decoder_init`: returned status, the handle's coder
state afterwards (`none` models `next->coder == NULL`), and whether
`lzma_alloc` was invoked during the call. -/
structure InitResult where
  ret : lzma_ret
  coder : Option lzma_coder
  allocated : Bool
  deriving DecidableEq, Repr

/-- The `auto_decoder_init` function of `auto_decoder.c`.  `allocOk`
models whether `lzma_alloc` succeeds; `existing` is the handle's current
`next->coder`.  The flags check `flags & ~LZMA_SUPPORTED_FLAGS` on the
32-bit flags word is `flags &&& (UINT32_MASK ^^^ LZMA_SUPPORTED_FLAGS)`. -/
def auto_decoder_init (allocOk : Bool) (existing : Option lzma_coder)
    (memlimit flags : Nat) : InitResult :=
  if flags &&& (UINT32_MASK ^^^ LZMA_SUPPORTED_FLAGS) ≠ 0 then
    ⟨.LZMA_OPTIONS_ERROR, existing, false⟩
  else
    match existing with
    | none =>
      if allocOk then
        ⟨.LZMA_OK, some ⟨.emptySlot, memlimit, flags, .SEQ_INIT⟩, true⟩
      else
        ⟨.LZMA_MEM_ERROR, none, true⟩
    | some c =>
      ⟨.LZMA_OK, some { c with memlimit := memlimit, flags := flags, sequence := .SEQ_INIT }, false⟩

/-- Forward order on the sequence enum: `SEQ_INIT < SEQ_CODE < SEQ_FINISH`. -/
def seqRank : Sequence → Nat
  | .SEQ_INIT => 0
  | .SEQ_CODE => 1
  | .SEQ_FINISH => 2

/-- Benign environment for concrete evaluations: both initializers
succeed and the delegate returns `LZMA_OK` leaving the cursors in place. -/
def env0 : DecoderEnv where
  stream_decoder_init := fun _ _ => .LZMA_OK
  alone_decoder_init := fun _ => .LZMA_OK
  next_code := fun _ _ i _ o _ _ => ⟨.LZMA_OK, i, o⟩

/-- Environment whose delegate reports logical stream end at once,
consuming all input. -/
def envSE : DecoderEnv where
  stream_decoder_init := fun _ _ => .LZMA_OK
  alone_decoder_init := fun _ => .LZMA_OK
  next_code := fun _ _ _ s _ o _ => ⟨.LZMA_STREAM_END, s, o⟩

/-- Environment whose concrete-decoder initializers fail with
`LZMA_MEM_ERROR`. -/
def envFail : DecoderEnv where
  stream_decoder_init := fun _ _ => .LZMA_MEM_ERROR
  alone_decoder_init := fun _ => .LZMA_MEM_ERROR
  next_code := fun _ _ i _ o _ _ => ⟨.LZMA_OK, i, o⟩

theorem seq_finish_step_coder (c : lzma_coder) (in_pos in_size out_pos : Nat)
    (action : lzma_action) :
    (seq_finish_step c in_pos in_size out_pos action).coder = c := by
  unfold seq_finish_step
  split
  · rfl
  · split <;> rfl

theorem seq_code_step_coder (env : DecoderEnv) (c : lzma_coder) (inBuf : List Nat)
    (in_pos in_size out_pos out_size : Nat) (action : lzma_action) :
    (seq_code_step env c inBuf in_pos in_size out_pos out_size action).coder = c ∨
    (seq_code_step env c inBuf in_pos in_size out_pos out_size action).coder =
      { c with sequence := .SEQ_FINISH } := by
  simp only [seq_code_step]
  split
  · exact Or.inl rfl
  · exact Or.inr (seq_finish_step_coder _ _ _ _ _)

theorem seq_code_step_next (env : DecoderEnv) (c : lzma_coder) (inBuf : List Nat)
    (in_pos in_size out_pos out_size : Nat) (action : lzma_action) :
    (seq_code_step env c inBuf in_pos in_size out_pos out_size action).coder.next = c.next := by
  rcases seq_code_step_coder env c inBuf in_pos in_size out_pos out_size action with h | h <;>
    rw [h]

/-- C6: an advance call in the Init state with no unconsumed input byte
returns Ok, leaves the whole coder state (in particular the Init
sequence) unchanged, and leaves both cursors unchanged, for every
environment, buffer, action and output window; hence arbitrarily many
repeated such calls all behave identically. -/
theorem auto_decode_init_no_input (env : DecoderEnv) (coder : lzma_coder)
    (inBuf : List Nat) (in_pos in_size out_pos out_size : Nat) (action : lzma_action)
    (hseq : coder.sequence = .SEQ_INIT) (hge : in_size ≤ in_pos) :
    auto_decode env coder inBuf in_pos in_size out_pos out_size action =
      ⟨.LZMA_OK, coder, in_pos, out_pos⟩ := by
  obtain ⟨nx, m, f, sq⟩ := coder
  simp only at hseq
  subst hseq
  simp [auto_decode, hge]

theorem auto_decode_init_no_input_witness :
    auto_decode env0 ⟨.emptySlot, 0, 0, .SEQ_INIT⟩ [] 0 0 0 0 .LZMA_RUN =
      ⟨.LZMA_OK, ⟨.emptySlot, 0, 0, .SEQ_INIT⟩, 0, 0⟩ :=
  auto_decode_init_no_input env0 ⟨.emptySlot, 0, 0, .SEQ_INIT⟩ [] 0 0 0 0 .LZMA_RUN
    rfl (Nat.le_refl 0)

/-- C2: an advance call in the Finish state returns DataFormatError
whenever an unconsumed input byte remains, and with no unconsumed input
returns StreamEnd on the Finish action and Ok on the Continue action. -/
theorem auto_decode_finish_state (env : DecoderEnv) (coder : lzma_coder)
    (inBuf : List Nat) (in_pos in_size out_pos out_size : Nat) (action : lzma_action)
    (hseq : coder.sequence = .SEQ_FINISH) :
    (in_pos < in_size →
      (auto_decode env coder inBuf in_pos in_size out_pos out_size action).ret =
        .LZMA_DATA_ERROR) ∧
    (in_size ≤ in_pos →
      (auto_decode env coder inBuf in_pos in_size out_pos out_size action).ret =
        if action = .LZMA_FINISH then .LZMA_STREAM_END else .LZMA_OK) := by
  obtain ⟨nx, m, f, sq⟩ := coder
  simp only at hseq
  subst hseq
  constructor
  · intro h
    simp [auto_decode, seq_finish_step, h]
  · intro h
    cases action <;> simp [auto_decode, seq_finish_step, Nat.not_lt.mpr h]

theorem auto_decode_finish_state_witness :
    ((0 : Nat) < 1 →
      (auto_decode env0 ⟨.alone 3, 3, 0, .SEQ_FINISH⟩ [9] 0 1 0 0 .LZMA_FINISH).ret =
        .LZMA_DATA_ERROR) ∧
    ((1 : Nat) ≤ 0 →
      (auto_decode env0 ⟨.alone 3, 3, 0, .SEQ_FINISH⟩ [9] 0 1 0 0 .LZMA_FINISH).ret =
        if lzma_action.LZMA_FINISH = .LZMA_FINISH then .LZMA_STREAM_END else .LZMA_OK) :=
  auto_decode_finish_state env0 ⟨.alone 3, 3, 0, .SEQ_FINISH⟩ [9] 0 1 0 0 .LZMA_FINISH rfl

/-- C9: the sequence field never moves backward on any advance call:
its rank in the order Init, Code, Finish never decreases, for every
state, environment, buffers and action. -/
theorem auto_decode_sequence_forward (env : DecoderEnv) (coder : lzma_coder)
    (inBuf : List Nat) (in_pos in_size out_pos out_size : Nat) (action : lzma_action) :
    seqRank coder.sequence ≤
      seqRank (auto_decode env coder inBuf in_pos in_size out_pos out_size action).coder.sequence := by
  obtain ⟨nx, m, f, sq⟩ := coder
  cases sq
  case SEQ_INIT => exact Nat.zero_le _
  case SEQ_CODE =>
    simp only [auto_decode]
    rcases seq_code_step_coder env ⟨nx, m, f, .SEQ_CODE⟩ inBuf in_pos in_size out_pos
        out_size action with h | h <;> simp only [h, seqRank] <;> omega
  case SEQ_FINISH =>
    simp only [auto_decode]
    rw [seq_finish_step_coder]

/-- C1: an advance call in the Init state with an unconsumed input byte
available installs the Stream decoder, initialized with both the
configured memory ceiling and the flags, exactly when that byte is 0xFD,
and otherwise installs the LZMA_Alone decoder, initialized with only the
memory ceiling; at every cursor position within the buffer. -/
theorem auto_decode_detects_format (env : DecoderEnv) (coder : lzma_coder)
    (inBuf : List Nat) (in_pos in_size out_pos out_size : Nat) (action : lzma_action)
    (hseq : coder.sequence = .SEQ_INIT) (hlt : in_pos < in_size) :
    (auto_decode env coder inBuf in_pos in_size out_pos out_size action).coder.next =
      if inBuf.getD in_pos 0 = 0xFD then
        NextCoder.stream coder.memlimit coder.flags
      else
        NextCoder.alone coder.memlimit := by
  obtain ⟨nx, m, f, sq⟩ := coder
  simp only at hseq
  subst hseq
  by_cases hbyte : inBuf.getD in_pos 0 = 0xFD
  · simp only [auto_decode, if_neg (Nat.not_le.mpr hlt), if_pos hbyte]
    split
    · rfl
    · rw [seq_code_step_next]
  · simp only [auto_decode, if_neg (Nat.not_le.mpr hlt), if_neg hbyte]
    split
    · rfl
    · split
      · rfl
      · split
        · rfl
        · rw [seq_code_step_next]

theorem auto_decode_detects_format_witness :
    (auto_decode env0 ⟨.emptySlot, 5, 4, .SEQ_INIT⟩ [253] 0 1 0 0 .LZMA_RUN).coder.next =
      if [253].getD 0 0 = 0xFD then
        NextCoder.stream 5 4
      else
        NextCoder.alone 5 :=
  auto_decode_detects_format env0 ⟨.emptySlot, 5, 4, .SEQ_INIT⟩ [253] 0 1 0 0 .LZMA_RUN
    rfl (by decide)

/-- C7: in every Init-state advance call that observes an available
input byte, the stored sequence is Code before the chosen initializer
runs: the resulting state is never Init again, and in particular when
the chosen initializer fails the call returns its error with the
sequence already at Code, so a re-entry resumes in Code and detection is
not re-run. -/
theorem auto_decode_code_before_init (env : DecoderEnv) (coder : lzma_coder)
    (inBuf : List Nat) (in_pos in_size out_pos out_size : Nat) (action : lzma_action)
    (hseq : coder.sequence = .SEQ_INIT) (hlt : in_pos < in_size) :
    (auto_decode env coder inBuf in_pos in_size out_pos out_size action).coder.sequence ≠
      .SEQ_INIT ∧
    (inBuf.getD in_pos 0 = 0xFD →
      env.stream_decoder_init coder.memlimit coder.flags ≠ .LZMA_OK →
      auto_decode env coder inBuf in_pos in_size out_pos out_size action =
        ⟨env.stream_decoder_init coder.memlimit coder.flags,
         { coder with sequence := .SEQ_CODE, next := .stream coder.memlimit coder.flags },
         in_pos, out_pos⟩) ∧
    (inBuf.getD in_pos 0 ≠ 0xFD →
      env.alone_decoder_init coder.memlimit ≠ .LZMA_OK →
      auto_decode env coder inBuf in_pos in_size out_pos out_size action =
        ⟨env.alone_decoder_init coder.memlimit,
         { coder with sequence := .SEQ_CODE, next := .alone coder.memlimit },
         in_pos, out_pos⟩) := by
  obtain ⟨nx, m, f, sq⟩ := coder
  simp only at hseq
  subst hseq
  refine ⟨?_, ?_, ?_⟩
  · by_cases hbyte : inBuf.getD in_pos 0 = 0xFD
    · simp only [auto_decode, if_neg (Nat.not_le.mpr hlt), if_pos hbyte]
      split
      · simp
      · rcases seq_code_step_coder env ⟨.stream m f, m, f, .SEQ_CODE⟩ inBuf in_pos in_size
            out_pos out_size action with h | h <;> simp [h]
    · simp only [auto_decode, if_neg (Nat.not_le.mpr hlt), if_neg hbyte]
      split
      · simp
      · split
        · simp
        · split
          · simp
          · rcases seq_code_step_coder env ⟨.alone m, m, f, .SEQ_CODE⟩ inBuf in_pos in_size
                out_pos out_size action with h | h <;> simp [h]
  · intro hbyte hfail
    simp only [auto_decode, if_neg (Nat.not_le.mpr hlt), if_pos hbyte, if_pos hfail]
  · intro hbyte hfail
    simp only [auto_decode, if_neg (Nat.not_le.mpr hlt), if_neg hbyte, if_pos hfail]

theorem auto_decode_code_before_init_witness :
    (auto_decode envFail ⟨.emptySlot, 2, 0, .SEQ_INIT⟩ [7] 0 1 0 0 .LZMA_RUN).coder.sequence ≠
      .SEQ_INIT ∧
    ([7].getD 0 0 = 0xFD →
      envFail.stream_decoder_init 2 0 ≠ .LZMA_OK →
      auto_decode envFail ⟨.emptySlot, 2, 0, .SEQ_INIT⟩ [7] 0 1 0 0 .LZMA_RUN =
        ⟨envFail.stream_decoder_init 2 0, ⟨.stream 2 0, 2, 0, .SEQ_CODE⟩, 0, 0⟩) ∧
    ([7].getD 0 0 ≠ 0xFD →
      envFail.alone_decoder_init 2 ≠ .LZMA_OK →
      auto_decode envFail ⟨.emptySlot, 2, 0, .SEQ_INIT⟩ [7] 0 1 0 0 .LZMA_RUN =
        ⟨envFail.alone_decoder_init 2, ⟨.alone 2, 2, 0, .SEQ_CODE⟩, 0, 0⟩) :=
  auto_decode_code_before_init envFail ⟨.emptySlot, 2, 0, .SEQ_INIT⟩ [7] 0 1 0 0 .LZMA_RUN
    rfl (by decide)

/-- C8: when detection chooses the LZMA_Alone decoder (first undetected
byte not 0xFD) and LZMA_TELL_NO_CHECK is set in the flags, the same call
returns LZMA_NO_CHECK immediately: the output cursor does not advance,
the input cursor does not advance, and the delegate is never entered,
for every output window including an empty one. -/
theorem auto_decode_alone_tell_no_check (env : DecoderEnv) (coder : lzma_coder)
    (inBuf : List Nat) (in_pos in_size out_pos out_size : Nat) (action : lzma_action)
    (hseq : coder.sequence = .SEQ_INIT) (hlt : in_pos < in_size)
    (hbyte : inBuf.getD in_pos 0 ≠ 0xFD)
    (hinit : env.alone_decoder_init coder.memlimit = .LZMA_OK)
    (hflag : coder.flags &&& LZMA_TELL_NO_CHECK ≠ 0) :
    auto_decode env coder inBuf in_pos in_size out_pos out_size action =
      ⟨.LZMA_NO_CHECK,
       { coder with sequence := .SEQ_CODE, next := .alone coder.memlimit },
       in_pos, out_pos⟩ := by
  obtain ⟨nx, m, f, sq⟩ := coder
  simp only at hseq
  subst hseq
  simp only at hinit hflag
  simp only [auto_decode, if_neg (Nat.not_le.mpr hlt), if_neg hbyte, hinit]
  simp [hflag]

theorem auto_decode_alone_tell_no_check_witness :
    auto_decode env0 ⟨.emptySlot, 6, 1, .SEQ_INIT⟩ [0] 0 1 0 0 .LZMA_RUN =
      ⟨.LZMA_NO_CHECK, ⟨.alone 6, 6, 1, .SEQ_CODE⟩, 0, 0⟩ :=
  auto_decode_alone_tell_no_check env0 ⟨.emptySlot, 6, 1, .SEQ_INIT⟩ [0] 0 1 0 0 .LZMA_RUN
    rfl (by decide) (by decide) rfl (by decide)

/-- C10: when detection chooses the LZMA_Alone decoder and both
LZMA_TELL_NO_CHECK and LZMA_TELL_ANY_CHECK are set, that call returns
LZMA_NO_CHECK and in particular never LZMA_GET_CHECK: the no-check
report takes priority over the proactive check report. -/
theorem auto_decode_tell_no_check_priority (env : DecoderEnv) (coder : lzma_coder)
    (inBuf : List Nat) (in_pos in_size out_pos out_size : Nat) (action : lzma_action)
    (hseq : coder.sequence = .SEQ_INIT) (hlt : in_pos < in_size)
    (hbyte : inBuf.getD in_pos 0 ≠ 0xFD)
    (hinit : env.alone_decoder_init coder.memlimit = .LZMA_OK)
    (hflag1 : coder.flags &&& LZMA_TELL_NO_CHECK ≠ 0)
    (hflag2 : coder.flags &&& LZMA_TELL_ANY_CHECK ≠ 0) :
    (auto_decode env coder inBuf in_pos in_size out_pos out_size action).ret =
      .LZMA_NO_CHECK ∧
    (auto_decode env coder inBuf in_pos in_size out_pos out_size action).ret ≠
      .LZMA_GET_CHECK := by
  obtain ⟨nx, m, f, sq⟩ := coder
  simp only at hseq
  subst hseq
  simp only at hinit hflag1
  simp only [auto_decode, if_neg (Nat.not_le.mpr hlt), if_neg hbyte, hinit]
  simp [hflag1]

theorem auto_decode_tell_no_check_priority_witness :
    (auto_decode env0 ⟨.emptySlot, 6, 3, .SEQ_INIT⟩ [0] 0 1 0 0 .LZMA_RUN).ret =
      .LZMA_NO_CHECK ∧
    (auto_decode env0 ⟨.emptySlot, 6, 3, .SEQ_INIT⟩ [0] 0 1 0 0 .LZMA_RUN).ret ≠
      .LZMA_GET_CHECK :=
  auto_decode_tell_no_check_priority env0 ⟨.emptySlot, 6, 3, .SEQ_INIT⟩ [0] 0 1 0 0
    .LZMA_RUN rfl (by decide) (by decide) rfl (by decide) (by decide)

/-- C3: in a Code-state advance call, the transition to Finish happens
exactly when the delegate returns LZMA_STREAM_END and LZMA_CONCATENATED
is set; in every other case the delegate's status and cursors are
returned verbatim and the coder state, in particular the Code sequence,
is unchanged. -/
theorem auto_decode_code_state (env : DecoderEnv) (coder : lzma_coder)
    (inBuf : List Nat) (in_pos in_size out_pos out_size : Nat) (action : lzma_action)
    (hseq : coder.sequence = .SEQ_CODE) :
    ((env.next_code coder.next inBuf in_pos in_size out_pos out_size action).ret =
        .LZMA_STREAM_END ∧ coder.flags &&& LZMA_CONCATENATED ≠ 0 →
      (auto_decode env coder inBuf in_pos in_size out_pos out_size action).coder.sequence =
        .SEQ_FINISH) ∧
    (¬((env.next_code coder.next inBuf in_pos in_size out_pos out_size action).ret =
        .LZMA_STREAM_END ∧ coder.flags &&& LZMA_CONCATENATED ≠ 0) →
      auto_decode env coder inBuf in_pos in_size out_pos out_size action =
        ⟨(env.next_code coder.next inBuf in_pos in_size out_pos out_size action).ret,
         coder,
         (env.next_code coder.next inBuf in_pos in_size out_pos out_size action).in_pos,
         (env.next_code coder.next inBuf in_pos in_size out_pos out_size action).out_pos⟩) := by
  obtain ⟨nx, m, f, sq⟩ := coder
  simp only at hseq
  subst hseq
  constructor
  · rintro ⟨hret, hcat⟩
    simp only at hret hcat
    simp only [auto_decode, seq_code_step]
    rw [if_neg (by simp [hret, hcat])]
    rw [seq_finish_step_coder]
  · intro h
    simp only at h
    simp only [auto_decode, seq_code_step]
    rw [if_pos]
    rcases not_and_or.mp h with h1 | h1
    · exact Or.inl h1
    · exact Or.inr (not_not.mp h1)

theorem auto_decode_code_state_witness :
    ((envSE.next_code (.alone 0) [] 0 0 0 0 .LZMA_FINISH).ret = .LZMA_STREAM_END ∧
        (4 : Nat) &&& LZMA_CONCATENATED ≠ 0 →
      (auto_decode envSE ⟨.alone 0, 0, 4, .SEQ_CODE⟩ [] 0 0 0 0 .LZMA_FINISH).coder.sequence =
        .SEQ_FINISH) ∧
    (¬((envSE.next_code (.alone 0) [] 0 0 0 0 .LZMA_FINISH).ret = .LZMA_STREAM_END ∧
        (4 : Nat) &&& LZMA_CONCATENATED ≠ 0) →
      auto_decode envSE ⟨.alone 0, 0, 4, .SEQ_CODE⟩ [] 0 0 0 0 .LZMA_FINISH =
        ⟨(envSE.next_code (.alone 0) [] 0 0 0 0 .LZMA_FINISH).ret,
         ⟨.alone 0, 0, 4, .SEQ_CODE⟩,
         (envSE.next_code (.alone 0) [] 0 0 0 0 .LZMA_FINISH).in_pos,
         (envSE.next_code (.alone 0) [] 0 0 0 0 .LZMA_FINISH).out_pos⟩) :=
  auto_decode_code_state envSE ⟨.alone 0, 0, 4, .SEQ_CODE⟩ [] 0 0 0 0 .LZMA_FINISH rfl

/-- C5: a configure call whose flags word has a bit outside the fixed
allow-set returns LZMA_OPTIONS_ERROR, invokes no allocation, and leaves
a pre-existing handle's coder state (nested coder, memory ceiling,
flags, sequence) exactly as it was. -/
theorem auto_decoder_init_bad_flags (allocOk : Bool) (existing : Option lzma_coder)
    (memlimit flags : Nat)
    (hbad : flags &&& (UINT32_MASK ^^^ LZMA_SUPPORTED_FLAGS) ≠ 0) :
    auto_decoder_init allocOk existing memlimit flags =
      ⟨.LZMA_OPTIONS_ERROR, existing, false⟩ := by
  unfold auto_decoder_init
  rw [if_pos hbad]

theorem auto_decoder_init_bad_flags_witness :
    auto_decoder_init true (some ⟨.alone 7, 7, 1, .SEQ_CODE⟩) 9 8 =
      ⟨.LZMA_OPTIONS_ERROR, some ⟨.alone 7, 7, 1, .SEQ_CODE⟩, false⟩ :=
  auto_decoder_init_bad_flags true (some ⟨.alone 7, 7, 1, .SEQ_CODE⟩) 9 8 (by decide)

theorem seq_finish_step_finish_action (c : lzma_coder) (in_pos in_size out_pos : Nat)
    (action : lzma_action)
    (hret : (seq_finish_step c in_pos in_size out_pos action).ret = .LZMA_STREAM_END) :
    action = .LZMA_FINISH := by
  unfold seq_finish_step at hret
  split at hret
  · simp at hret
  · split at hret
    · assumption
    · simp at hret

theorem seq_code_step_finish_action (env : DecoderEnv) (c : lzma_coder) (inBuf : List Nat)
    (in_pos in_size out_pos out_size : Nat) (action : lzma_action)
    (hcat : c.flags &&& LZMA_CONCATENATED ≠ 0)
    (hret : (seq_code_step env c inBuf in_pos in_size out_pos out_size action).ret =
      .LZMA_STREAM_END) :
    action = .LZMA_FINISH := by
  simp only [seq_code_step] at hret
  split at hret
  · next hcond =>
    simp only at hret
    rcases hcond with h1 | h1
    · exact absurd hret h1
    · exact absurd h1 hcat
  · exact seq_finish_step_finish_action _ _ _ _ _ hret

/-- C4 counterexample: with the LZMA_CONCATENATED flag unset, a
Code-state advance call whose delegate reports stream end returns
LZMA_STREAM_END verbatim even though the action is LZMA_RUN, the
spec's Continue; so StreamEnd is not returned only on Finish-action
calls. -/
theorem auto_decode_stream_end_on_run :
    (auto_decode envSE ⟨.alone 0, 0, 0, .SEQ_CODE⟩ [] 0 0 0 0 .LZMA_RUN).ret =
      .LZMA_STREAM_END ∧
    lzma_action.LZMA_RUN ≠ .LZMA_FINISH :=
  ⟨rfl, by decide⟩

/-- C4 amended: provided the LZMA_CONCATENATED flag is set and the
concrete initializers never report stream end (they report success or
an error), an advance call returns LZMA_STREAM_END only when the
caller's action is LZMA_FINISH. -/
theorem auto_decode_stream_end_requires_finish (env : DecoderEnv) (coder : lzma_coder)
    (inBuf : List Nat) (in_pos in_size out_pos out_size : Nat) (action : lzma_action)
    (hcat : coder.flags &&& LZMA_CONCATENATED ≠ 0)
    (hsi : env.stream_decoder_init coder.memlimit coder.flags ≠ .LZMA_STREAM_END)
    (hai : env.alone_decoder_init coder.memlimit ≠ .LZMA_STREAM_END)
    (hret : (auto_decode env coder inBuf in_pos in_size out_pos out_size action).ret =
      .LZMA_STREAM_END) :
    action = .LZMA_FINISH := by
  obtain ⟨nx, m, f, sq⟩ := coder
  simp only at hcat hsi hai
  cases sq
  case SEQ_CODE =>
    simp only [auto_decode] at hret
    exact seq_code_step_finish_action _ _ _ _ _ _ _ _ hcat hret
  case SEQ_FINISH =>
    simp only [auto_decode] at hret
    exact seq_finish_step_finish_action _ _ _ _ _ hret
  case SEQ_INIT =>
    simp only [auto_decode] at hret
    split at hret
    · simp at hret
    · split at hret
      · split at hret
        · simp only at hret
          exact absurd hret hsi
        · exact seq_code_step_finish_action _ _ _ _ _ _ _ _ hcat hret
      · split at hret
        · simp only at hret
          exact absurd hret hai
        · split at hret
          · simp at hret
          · split at hret
            · simp at hret
            · exact seq_code_step_finish_action _ _ _ _ _ _ _ _ hcat hret

theorem auto_decode_stream_end_requires_finish_witness :
    lzma_action.LZMA_FINISH = .LZMA_FINISH :=
  auto_decode_stream_end_requires_finish env0 ⟨.emptySlot, 0, 4, .SEQ_FINISH⟩ [] 0 0 0 0
    .LZMA_FINISH (by decide) (by decide) (by decide) rfl
